import Mathlib

/-!
# RepositoriesPage (src/templates/repositories/index.jsx)

A shallow embedding of the `RepositoriesPage` component: the active-action
resolver, the search effect, the navigation-reset effect, the focus handler of
the search box, the pagination caption range and the render tree.

Conventions of the embedding.

* A JavaScript string is the list of its UTF-16 code units; `includes` scans the
  start positions from left to right, as `String.prototype.includes` does.
* A JavaScript number that holds a page number or a count is an `Int`
  (the values stay far below `2^53`, where the arithmetic of doubles is exact).
* Arrays of repositories live in a heap and are held by reference, so that
  `filteredRepositories === repositories` is the comparison of two references.
* A React state setter or a navigation callback that a handler or an effect
  invokes is recorded as a `Call`; the setters are then applied to the state.
* The modules `src/constants`, `src/hooks/useDebounce` and
  `src/hooks/useNavigation` are taken as parameters: the list
  `Object.values(ACTIONS)`, the object `ACTIONS.TRENDING`, the number
  `REPOSITORY_COUNT_PER_PAGE`, and the debounced search value.
-/

namespace RepositoriesPage

/-! ## Strings -/

/-- A UTF-16 code unit. -/
abbrev CodeUnit := Nat

/-- A JavaScript string: its sequence of UTF-16 code units. -/
abbrev JSString := List CodeUnit

/-- The code units of a string of the Basic Multilingual Plane. -/
def str (s : String) : JSString := s.toList.map Char.toNat

/-- Truthiness of a string (`if (s)`, `!s`, `s || ""`): a string is truthy
exactly when it is not empty. -/
def truthy (s : JSString) : Bool := !s.isEmpty

/-- Whether `t` starts `s`: the code units of `t` equal those of `s` at the
positions `0 .. t.length - 1`. -/
def startsWith : JSString → JSString → Bool
  | _, [] => true
  | [], _ :: _ => false
  | c :: s, d :: t => c == d && startsWith s t

/-- The method `s.includes(t)`: some start position `i` of `s`, tried from `0`
upwards, has the code units of `t` at `i .. i + t.length - 1`. -/
def includes : JSString → JSString → Bool
  | [], t => startsWith [] t
  | c :: s, t => startsWith (c :: s) t || includes s t

/-! ## Actions (line 31-36) -/

/-- An entry of `ACTIONS`: an object, identified by its reference `ref`, with a
label and a route. -/
structure Action where
  ref : Nat
  label : JSString
  route : JSString
  deriving DecidableEq, Repr

/-- The comparison `a !== b` of two action objects: they are different objects. -/
def Action.strictNe (a b : Action) : Bool := a.ref != b.ref

/-- The binding `currentPath = location.pathname || ""`; a missing pathname is
`none`. -/
def currentPath (pathname : Option JSString) : JSString :=
  match pathname with
  | some p => if truthy p then p else []
  | none => []

/-- The predicate handed to `find` at line 34-35. -/
def isActive (TRENDING : Action) (path : JSString) (action : Action) : Bool :=
  includes path action.route && action.strictNe TRENDING

/-- The binding `activeAction` of line 32-36: `values` is `Object.values(ACTIONS)`
and `TRENDING` is `ACTIONS.TRENDING`. `find` yields `undefined`, which is falsy,
when no element passes, and an object, which is truthy, otherwise. -/
def activeAction (values : List Action) (TRENDING : Action)
    (pathname : Option JSString) : Action :=
  match values.find? (isActive TRENDING (currentPath pathname)) with
  | some action => action
  | none => TRENDING

/-! ## Data (line 23-29, 157-235) -/

/-- The owner of a repository (`owner { name }`). -/
structure Owner where
  name : JSString
  deriving DecidableEq, Repr

/-- A repository node of the page query. An image is kept as the number of its
file. -/
structure Repository where
  name : JSString
  description : JSString
  stargazersCount : Int
  createdAt : JSString
  lastCommitAt : JSString
  githubUrl : JSString
  weekStargazersCount : Int
  owner : Owner
  featuredImage : Nat
  images : List Nat
  deriving DecidableEq, Repr

/-- A reference to an array of repositories. -/
abbrev Ref := Nat

/-- The arrays of repositories that exist, by reference: the array of reference
`r` is the entry `r` of `arrays`. -/
structure Heap where
  arrays : List (List Repository)
  deriving DecidableEq, Repr

/-- The elements of the array behind a reference. -/
def Heap.read (h : Heap) (r : Ref) : List Repository := h.arrays.getD r []

/-- A new array with the elements `xs`: the heap that holds it and its
reference, which no array of `h` has. -/
def Heap.alloc (h : Heap) (xs : List Repository) : Heap × Ref :=
  (⟨h.arrays ++ [xs]⟩, h.arrays.length)

/-- The names imported from `src/constants` (line 7): `values` is
`Object.values(ACTIONS)`, `TRENDING` is `ACTIONS.TRENDING`. -/
structure Constants where
  values : List Action
  TRENDING : Action
  REPOSITORY_COUNT_PER_PAGE : Int
  deriving DecidableEq, Repr

/-- What the component destructures from `data`, `pageContext` and `location`
(line 24-31). -/
structure Props where
  totalCount : Int
  repositories : Ref
  allRepositories : Ref
  platform : JSString
  currentPage : Int
  pageCount : Int
  pathname : Option JSString
  deriving DecidableEq, Repr

/-- The `useState` cells of the component (line 38-45). -/
structure State where
  searchInput : JSString
  hasSearched : Bool
  isSearchInputFocused : Bool
  filteredRepositories : Ref
  deriving DecidableEq, Repr

/-- The state of the first render: the initial values given to `useState`. -/
def initialState (p : Props) : State :=
  { searchInput := []
    hasSearched := false
    isSearchInputFocused := false
    filteredRepositories := p.repositories }

/-- An invocation of a state setter or of a navigation callback. -/
inductive Call where
  | setSearchInput (value : JSString)
  | setHasSearched (value : Bool)
  | setIsSearchInputFocused (value : Bool)
  | setFilteredRepositories (value : Ref)
  | resetNavigation
  | disableNavigation
  deriving DecidableEq, Repr

/-- The effect of one invocation on the cells of the component; the navigation
callbacks belong to `useNavigation` and touch none of them. -/
def applyCall (s : State) : Call → State
  | .setSearchInput v => { s with searchInput := v }
  | .setHasSearched v => { s with hasSearched := v }
  | .setIsSearchInputFocused v => { s with isSearchInputFocused := v }
  | .setFilteredRepositories v => { s with filteredRepositories := v }
  | .resetNavigation => s
  | .disableNavigation => s

/-- The invocations of a handler or effect, applied in order. -/
def applyCalls (s : State) (calls : List Call) : State := calls.foldl applyCall s

/-! ## Effects and handlers (line 51-77, 95-103) -/

/-- The memo `isInitialLoad` of line 51-56; its dependencies are all the values
it reads, so it is this function of the current render. -/
def isInitialLoad (p : Props) (s : State) : Bool :=
  !s.hasSearched && s.filteredRepositories == p.repositories

/-- The callback given to `filter` at line 61-63. -/
def matchesSearch (debouncedSearchInput : JSString) (repository : Repository) : Bool :=
  includes repository.name debouncedSearchInput

/-- One run of the search effect (line 58-67) in the render with state `s` and
debounced value `debouncedSearchInput`: the heap after it (`filter` makes a new
array) and the setters it invokes, in order. -/
def searchEffect (p : Props) (debouncedSearchInput : JSString) (s : State) (h : Heap) :
    Heap × List Call :=
  if truthy debouncedSearchInput then
    let r := h.alloc ((h.read p.allRepositories).filter (matchesSearch debouncedSearchInput))
    (r.1, [Call.setFilteredRepositories r.2, Call.setHasSearched true])
  else if !isInitialLoad p s then (h, [Call.setFilteredRepositories p.repositories])
  else (h, [])

/-- One run of the navigation-reset effect (line 69-77). -/
def navigationEffect (p : Props) (s : State) : List Call :=
  if !isInitialLoad p s && !s.isSearchInputFocused then [Call.resetNavigation] else []

/-- The handler `onChange` of the search box (line 95), at `event.target.value`. -/
def onChange (value : JSString) : List Call := [Call.setSearchInput value]

/-- The handler `onFocusChange` of the search box (line 96-103). -/
def onFocusChange (s : State) (isFocused : Bool) : List Call :=
  (if isFocused then [Call.disableNavigation]
   else if !truthy s.searchInput then [Call.resetNavigation]
   else []) ++ [Call.setIsSearchInputFocused isFocused]

/-- The state and heap after one run of the search effect. -/
def runSearchEffect (p : Props) (debouncedSearchInput : JSString) (x : State × Heap) :
    State × Heap :=
  let r := searchEffect p debouncedSearchInput x.1 x.2
  (applyCalls x.1 r.2, r.1)

/-- The search effect followed to rest, while the debounced value and the props
stay as they are: the effect runs, and it runs once more when the render that
its setters cause has another `isInitialLoad`, the only dependency of line 67
that a setter can change. -/
def settleSearch (p : Props) (debouncedSearchInput : JSString) (x : State × Heap) :
    State × Heap :=
  let y := runSearchEffect p debouncedSearchInput x
  if isInitialLoad p y.1 != isInitialLoad p x.1 then runSearchEffect p debouncedSearchInput y
  else y

/-- What can happen to the component between two changes of the debounced
value: a keystroke, a focus change, a run of either effect. -/
inductive Event where
  | change (value : JSString)
  | focusChange (isFocused : Bool)
  | searchEffectRun
  | navigationEffectRun
  deriving DecidableEq, Repr

/-- The state and heap after an event, at the debounced value
`debouncedSearchInput`. -/
def step (p : Props) (debouncedSearchInput : JSString) (x : State × Heap) :
    Event → State × Heap
  | .change v => (applyCalls x.1 (onChange v), x.2)
  | .focusChange b => (applyCalls x.1 (onFocusChange x.1 b), x.2)
  | .searchEffectRun => runSearchEffect p debouncedSearchInput x
  | .navigationEffectRun => (applyCalls x.1 (navigationEffect p x.1), x.2)

/-- The state and heap after a sequence of events. -/
def run (p : Props) (debouncedSearchInput : JSString) (x : State × Heap)
    (events : List Event) : State × Heap :=
  events.foldl (step p debouncedSearchInput) x

/-! ## Caption range (line 82-86) -/

/-- The binding `startIndex` of line 82. -/
def startIndex (pageSize currentPage : Int) : Int := (currentPage - 1) * pageSize + 1

/-- The binding `endIndex` of line 83-86. -/
def endIndex (pageSize totalCount currentPage : Int) : Int :=
  if currentPage = totalCount then totalCount else currentPage * pageSize

/-! ## Render (line 88-131) -/

/-- A `Card` element of line 116-120. -/
structure Card where
  key : JSString
  fromPath : JSString
  repository : Repository
  deriving DecidableEq, Repr

/-- A child of `Layout` in the tree that the component returns. -/
inductive Element where
  | seo (title : JSString)
  | intro
  | actionRow (value : JSString) (actions : List Action) (activeAction : Action)
  | caption (startIndex endIndex totalCount : Int)
  | grid (cards : List Card)
  | pagination (currentPage pageCount : Int) (activeActionRoute : JSString)
  deriving DecidableEq, Repr

/-- The card of a repository (line 116-120). -/
def card (path : JSString) (repository : Repository) : Card :=
  { key := str "repository-" ++ repository.owner.name ++ str "-" ++ repository.name
    fromPath := path
    repository := repository }

/-- The children of `Layout` at line 89-130, in order. A child written
`{!debouncedSearchInput && (...)}` is there when the debounced value is falsy
and renders nothing otherwise. -/
def render (c : Constants) (p : Props) (debouncedSearchInput : JSString) (s : State)
    (h : Heap) : List Element :=
  let action := activeAction c.values c.TRENDING p.pathname
  [Element.seo (action.label ++ str " " ++ p.platform ++ str " color schemes"),
   Element.intro,
   Element.actionRow s.searchInput c.values action]
  ++ (if !truthy debouncedSearchInput then
        [Element.caption (startIndex c.REPOSITORY_COUNT_PER_PAGE p.currentPage)
          (endIndex c.REPOSITORY_COUNT_PER_PAGE p.totalCount p.currentPage) p.totalCount]
      else [])
  ++ [Element.grid ((h.read s.filteredRepositories).map (card (currentPath p.pathname)))]
  ++ (if !truthy debouncedSearchInput then
        [Element.pagination p.currentPage p.pageCount action.route]
      else [])

/-- Whether an element is the caption paragraph. -/
def Element.isCaption : Element → Bool
  | .caption _ _ _ => true
  | _ => false

/-- Whether an element is the `Pagination` component. -/
def Element.isPagination : Element → Bool
  | .pagination _ _ _ => true
  | _ => false

/-- The cards of an element: those of the grid, none elsewhere. -/
def Element.cards : Element → List Card
  | .grid cs => cs
  | _ => []

/-- All cards of a render tree. -/
def renderedCards (tree : List Element) : List Card := tree.flatMap Element.cards

/-! ## Example data -/

/-- A repository with the given owner and name and no other content. -/
def repositoryNamed (owner name : String) : Repository :=
  { name := str name
    description := []
    stargazersCount := 0
    createdAt := []
    lastCommitAt := []
    githubUrl := []
    weekStargazersCount := 0
    owner := { name := str owner }
    featuredImage := 0
    images := [] }

/-- A heap with a page of two repositories at reference 0 and the full list of
four at reference 1. -/
def exampleHeap : Heap :=
  ⟨[[repositoryNamed "morhetz" "gruvbox", repositoryNamed "joshdick" "onedark.vim"],
    [repositoryNamed "morhetz" "gruvbox", repositoryNamed "joshdick" "onedark.vim",
     repositoryNamed "arcticicestudio" "nord-vim", repositoryNamed "ajmwagar" "vim-darkness"]]⟩

/-- Props over `exampleHeap`: page 2 of 3, 50 repositories in total. -/
def exampleProps : Props :=
  { totalCount := 50
    repositories := 0
    allRepositories := 1
    platform := str "vim"
    currentPage := 2
    pageCount := 3
    pathname := some (str "/top/page/2") }

/-- Constants with three actions, the first of them `TRENDING`, and a page size
of 24. -/
def exampleConstants : Constants :=
  { values :=
      [{ ref := 0, label := str "Trending", route := str "/" },
       { ref := 1, label := str "Top", route := str "/top" },
       { ref := 2, label := str "New", route := str "/new" }]
    TRENDING := { ref := 0, label := str "Trending", route := str "/" }
    REPOSITORY_COUNT_PER_PAGE := 24 }

/-! ## Lemmas on strings -/

theorem startsWith_iff (s t : JSString) : startsWith s t = true ↔ t <+: s := by
  induction s generalizing t with
  | nil =>
    cases t with
    | nil => simp [startsWith]
    | cons d t => simp [startsWith]
  | cons c s ih =>
    cases t with
    | nil => simp [startsWith]
    | cons d t =>
      simp only [startsWith, Bool.and_eq_true, beq_iff_eq, ih, List.cons_prefix_cons]
      constructor
      · rintro ⟨h1, h2⟩; exact ⟨h1.symm, h2⟩
      · rintro ⟨h1, h2⟩; exact ⟨h1.symm, h2⟩

theorem includes_iff (s t : JSString) : includes s t = true ↔ t <:+: s := by
  induction s with
  | nil =>
    simp only [includes, startsWith_iff]
    constructor
    · intro h; exact h.isInfix
    · intro h
      have : t = [] := List.eq_nil_of_infix_nil h
      subst this; exact List.prefix_refl _
  | cons c s ih =>
    simp only [includes, Bool.or_eq_true, startsWith_iff, ih]
    rw [List.infix_cons_iff]

theorem currentPath_some (p : JSString) : currentPath (some p) = p := by
  cases p <;> simp [currentPath, truthy]

/-! ## Lemmas on the heap and the setters -/

theorem read_alloc_new (h : Heap) (xs : List Repository) :
    (h.alloc xs).1.read (h.alloc xs).2 = xs := by
  simp [Heap.alloc, Heap.read, List.getD_append_right]

theorem read_alloc_old (h : Heap) (xs : List Repository) (r : Ref)
    (hr : r < h.arrays.length) : (h.alloc xs).1.read r = h.read r := by
  show (h.arrays ++ [xs]).getD r [] = h.arrays.getD r []
  exact List.getD_append _ _ _ _ hr

theorem matchesSearch_iff (S : JSString) (r : Repository) :
    matchesSearch S r = true ↔ S <:+: r.name := by
  simp [matchesSearch, includes_iff]

theorem truthy_iff (S : JSString) : truthy S = true ↔ S ≠ [] := by
  cases S <;> simp [truthy]

theorem runSearchEffect_search (p : Props) (S : JSString) (s : State) (h : Heap)
    (hS : S ≠ []) :
    runSearchEffect p S (s, h) =
      ({ s with
          filteredRepositories := h.arrays.length
          hasSearched := true },
       (h.alloc ((h.read p.allRepositories).filter (matchesSearch S))).1) := by
  have ht : truthy S = true := (truthy_iff S).2 hS
  simp [runSearchEffect, searchEffect, ht, applyCalls, applyCall, Heap.alloc]

theorem displayed_search (p : Props) (S : JSString) (s : State) (h : Heap) (hS : S ≠ []) :
    (runSearchEffect p S (s, h)).2.read (runSearchEffect p S (s, h)).1.filteredRepositories =
      (h.read p.allRepositories).filter (matchesSearch S) := by
  rw [runSearchEffect_search p S s h hS]
  exact read_alloc_new h _

theorem runSearchEffect_empty (p : Props) (s : State) (h : Heap) :
    runSearchEffect p [] (s, h) =
      (if isInitialLoad p s then s else { s with filteredRepositories := p.repositories }, h) := by
  cases hi : isInitialLoad p s <;>
    simp [runSearchEffect, searchEffect, truthy, hi, applyCalls, applyCall]

/-! ## Active action -/

/-- C1: for every path (a missing pathname counts as the empty string), the
active action is the first element of `Object.values(ACTIONS)` that is not the
object `ACTIONS.TRENDING` and whose route is a substring of the path; when there
is no such element it is `ACTIONS.TRENDING`. -/
theorem activeAction_first_match (values : List Action) (TRENDING : Action)
    (pathname : Option JSString) :
    (∃ before a after, values = before ++ a :: after ∧
        (a.ref ≠ TRENDING.ref ∧ a.route <:+: pathname.getD []) ∧
        (∀ b ∈ before, ¬ (b.ref ≠ TRENDING.ref ∧ b.route <:+: pathname.getD [])) ∧
        activeAction values TRENDING pathname = a) ∨
    ((∀ b ∈ values, ¬ (b.ref ≠ TRENDING.ref ∧ b.route <:+: pathname.getD [])) ∧
        activeAction values TRENDING pathname = TRENDING) := by
  have hpath : currentPath pathname = pathname.getD [] := by
    cases pathname with
    | none => rfl
    | some q => simp [currentPath_some]
  have hact : ∀ b : Action, isActive TRENDING (pathname.getD []) b = true ↔
      (b.ref ≠ TRENDING.ref ∧ b.route <:+: pathname.getD []) := by
    intro b
    simp only [isActive, Action.strictNe, Bool.and_eq_true, includes_iff, bne_iff_ne]
    exact and_comm
  unfold activeAction
  rw [hpath]
  cases hf : values.find? (isActive TRENDING (pathname.getD [])) with
  | none =>
    right
    rw [List.find?_eq_none] at hf
    exact ⟨fun b hb hq => hf b hb ((hact b).2 hq), rfl⟩
  | some a =>
    left
    rw [List.find?_eq_some] at hf
    obtain ⟨ha, before, after, hsplit, hbefore⟩ := hf
    refine ⟨before, a, after, hsplit, (hact a).1 ha, ?_, rfl⟩
    intro b hb hq
    have := hbefore b hb
    simp [(hact b).2 hq] at this

/-! ## Search filter -/

/-- C2: for a non-empty debounced value `S`, one run of the search effect leaves
as displayed list exactly the repositories of the full list `allRepositories`
whose name contains `S` (equal code units, hence case-sensitive), in the order
of the full list, and sets `hasSearched`; the list depends neither on the
paginated list nor on the state before. -/
theorem searchEffect_filters_full_list (p : Props) (S : JSString) (s : State) (h : Heap)
    (hS : S ≠ []) :
    (runSearchEffect p S (s, h)).2.read (runSearchEffect p S (s, h)).1.filteredRepositories =
        (h.read p.allRepositories).filter (fun r => decide (S <:+: r.name)) ∧
    (runSearchEffect p S (s, h)).1.hasSearched = true ∧
    ((runSearchEffect p S (s, h)).2.read
        (runSearchEffect p S (s, h)).1.filteredRepositories).Sublist
      (h.read p.allRepositories) ∧
    (∀ r, r ∈ (runSearchEffect p S (s, h)).2.read
          (runSearchEffect p S (s, h)).1.filteredRepositories ↔
        r ∈ h.read p.allRepositories ∧ S <:+: r.name) ∧
    (∀ (q : Props) (t : State), q.allRepositories = p.allRepositories →
        (runSearchEffect q S (t, h)).2.read
            (runSearchEffect q S (t, h)).1.filteredRepositories =
          (runSearchEffect p S (s, h)).2.read
            (runSearchEffect p S (s, h)).1.filteredRepositories) := by
  have hfun : matchesSearch S = fun r => decide (S <:+: r.name) := by
    funext r
    rw [Bool.eq_iff_iff, matchesSearch_iff]
    simp
  rw [displayed_search p S s h hS, hfun]
  refine ⟨rfl, ?_, List.filter_sublist _, ?_, ?_⟩
  · rw [runSearchEffect_search p S s h hS]
  · intro r
    simp [List.mem_filter]
  · intro q t hq
    rw [displayed_search q S t h hS, hfun, hq]

/-- C10: for non-empty `S` and `S'` with `S` a substring of `S'`, the list
displayed after searching `S'` is a sublist of the list displayed after searching
`S`, and both are sublists of the full list; the list displayed after searching
`S` is the same from every state before, and, `allRepositories` being an array
of the heap, a second search for `S` displays the same list as the first. -/
theorem search_narrowing (p : Props) (S S' : JSString) (s s' : State) (h : Heap)
    (hS : S ≠ []) (hS' : S' ≠ []) (hsub : S <:+: S') :
    ((runSearchEffect p S' (s', h)).2.read
        (runSearchEffect p S' (s', h)).1.filteredRepositories).Sublist
      ((runSearchEffect p S (s, h)).2.read
        (runSearchEffect p S (s, h)).1.filteredRepositories) ∧
    ((runSearchEffect p S (s, h)).2.read
        (runSearchEffect p S (s, h)).1.filteredRepositories).Sublist
      (h.read p.allRepositories) ∧
    ((runSearchEffect p S' (s', h)).2.read
        (runSearchEffect p S' (s', h)).1.filteredRepositories).Sublist
      (h.read p.allRepositories) ∧
    (p.allRepositories < h.arrays.length →
      (runSearchEffect p S (runSearchEffect p S (s, h))).2.read
          (runSearchEffect p S (runSearchEffect p S (s, h))).1.filteredRepositories =
        (runSearchEffect p S (s, h)).2.read
          (runSearchEffect p S (s, h)).1.filteredRepositories) ∧
    (runSearchEffect p S (s', h)).2.read
        (runSearchEffect p S (s', h)).1.filteredRepositories =
      (runSearchEffect p S (s, h)).2.read
        (runSearchEffect p S (s, h)).1.filteredRepositories := by
  rw [displayed_search p S s h hS, displayed_search p S' s' h hS',
    displayed_search p S s' h hS]
  refine ⟨?_, List.filter_sublist _, List.filter_sublist _, ?_, rfl⟩
  · apply List.monotone_filter_right
    intro r hr
    rw [matchesSearch_iff] at hr ⊢
    exact hsub.trans hr
  · intro hlive
    rw [runSearchEffect_search p S s h hS, displayed_search p S _ _ hS,
      read_alloc_old h _ _ hlive]

/-! ## Caption range -/

theorem endIndex_eq_totalCount_iff (pageSize totalCount currentPage : Int) :
    endIndex pageSize totalCount currentPage = totalCount ↔
      currentPage = totalCount ∨ currentPage * pageSize = totalCount := by
  unfold endIndex
  split
  · simp [*]
  · simp [*]

/-- C3: at page size 24, total count 50 and current page 3, which is the last
page, the code computes start 49 and end 72: the end is `totalCount` only when
`currentPage` equals `totalCount`, not on the last page. -/
theorem endIndex_last_page_24_50_3 :
    ⌈((50 : Int) : ℚ) / ((24 : Int) : ℚ)⌉ = 3 ∧
    startIndex 24 3 = 49 ∧ endIndex 24 50 3 = 72 ∧ endIndex 24 50 3 ≠ 50 := by
  refine ⟨?_, by decide, by decide, by decide⟩
  rw [Int.ceil_eq_iff]
  norm_num

/-- C4: for a current page of at least 1 the start is
`(currentPage - 1) * pageSize + 1`; and when the page size is at least 1 and the
current page is before the last page `pageCount = ceil (totalCount / pageSize)`,
the end is `currentPage * pageSize`. -/
theorem caption_range_before_last_page (pageSize totalCount currentPage pageCount : Int)
    (hpage : 1 ≤ currentPage) :
    startIndex pageSize currentPage = (currentPage - 1) * pageSize + 1 ∧
    (1 ≤ pageSize → pageCount = ⌈(totalCount : ℚ) / (pageSize : ℚ)⌉ →
      currentPage < pageCount → endIndex pageSize totalCount currentPage = currentPage * pageSize) := by
  refine ⟨rfl, ?_⟩
  intro hsize hcount hlt
  have hne : currentPage ≠ totalCount := by
    intro heq
    have htotal : (0 : ℚ) ≤ (totalCount : ℚ) := by
      have : (0 : Int) ≤ totalCount := by omega
      exact_mod_cast this
    have hsizeq : (1 : ℚ) ≤ (pageSize : ℚ) := by exact_mod_cast hsize
    have hle : ⌈(totalCount : ℚ) / (pageSize : ℚ)⌉ ≤ totalCount :=
      Int.ceil_le.2 (div_le_self htotal hsizeq)
    omega
  simp [endIndex, hne]

/-- C4 at page size 24, total count 50, current page 2 of 3: the range is 25 - 48. -/
theorem caption_range_before_last_page_witness :
    (1 : Int) ≤ 2 ∧ startIndex 24 2 = 25 ∧ endIndex 24 50 2 = 48 := by
  have h := caption_range_before_last_page 24 50 2 3 (by decide)
  refine ⟨by decide, ?_, ?_⟩
  · rw [h.1]; decide
  · rw [h.2 (by decide) (by rw [eq_comm, Int.ceil_eq_iff]; norm_num) (by decide)]; decide

/-- C2 at the example data: searching "dark" in the full list of four displays
the two repositories whose names contain it, neither of which need be on the
page. -/
theorem searchEffect_filters_full_list_witness :
    str "dark" ≠ [] ∧
    (runSearchEffect exampleProps (str "dark") (initialState exampleProps, exampleHeap)).2.read
        (runSearchEffect exampleProps (str "dark")
          (initialState exampleProps, exampleHeap)).1.filteredRepositories =
      [repositoryNamed "joshdick" "onedark.vim", repositoryNamed "ajmwagar" "vim-darkness"] := by
  refine ⟨by decide, ?_⟩
  rw [(searchEffect_filters_full_list exampleProps (str "dark") (initialState exampleProps)
    exampleHeap (by decide)).1]
  decide

/-- C10 at the example data: "darkness" after "dark" keeps one of the two
matches, and a second search for "dark" displays the same two. -/
theorem search_narrowing_witness :
    ((runSearchEffect exampleProps (str "darkness")
          (initialState exampleProps, exampleHeap)).2.read
        (runSearchEffect exampleProps (str "darkness")
          (initialState exampleProps, exampleHeap)).1.filteredRepositories).Sublist
      ((runSearchEffect exampleProps (str "dark")
          (initialState exampleProps, exampleHeap)).2.read
        (runSearchEffect exampleProps (str "dark")
          (initialState exampleProps, exampleHeap)).1.filteredRepositories) ∧
    (runSearchEffect exampleProps (str "dark")
          (runSearchEffect exampleProps (str "dark")
            (initialState exampleProps, exampleHeap))).2.read
        (runSearchEffect exampleProps (str "dark")
          (runSearchEffect exampleProps (str "dark")
            (initialState exampleProps, exampleHeap))).1.filteredRepositories =
      (runSearchEffect exampleProps (str "dark")
          (initialState exampleProps, exampleHeap)).2.read
        (runSearchEffect exampleProps (str "dark")
          (initialState exampleProps, exampleHeap)).1.filteredRepositories :=
  ⟨(search_narrowing exampleProps (str "dark") (str "darkness") (initialState exampleProps)
      (initialState exampleProps) exampleHeap (by decide) (by decide) (by decide)).1,
   (search_narrowing exampleProps (str "dark") (str "darkness") (initialState exampleProps)
      (initialState exampleProps) exampleHeap (by decide) (by decide) (by decide)).2.2.2.1
      (by decide)⟩

/-! ## The search effect as a step -/

theorem isInitialLoad_iff (p : Props) (s : State) :
    isInitialLoad p s = true ↔ s.hasSearched = false ∧ s.filteredRepositories = p.repositories := by
  simp [isInitialLoad]

theorem runSearchEffect_empty_filtered (p : Props) (s : State) (h : Heap) :
    (runSearchEffect p [] (s, h)).1.filteredRepositories = p.repositories := by
  rw [runSearchEffect_empty]
  cases hi : isInitialLoad p s
  · simp
  · simpa using ((isInitialLoad_iff p s).1 hi).2

theorem runSearchEffect_empty_heap (p : Props) (x : State × Heap) :
    (runSearchEffect p [] x).2 = x.2 := by
  obtain ⟨s, h⟩ := x
  rw [runSearchEffect_empty]

theorem settleSearch_cases (p : Props) (d : JSString) (x : State × Heap) :
    settleSearch p d x = runSearchEffect p d x ∨
      settleSearch p d x = runSearchEffect p d (runSearchEffect p d x) := by
  unfold settleSearch
  by_cases hc : (isInitialLoad p (runSearchEffect p d x).1 != isInitialLoad p x.1) = true
  · right; simp only [hc, if_true]
  · left; simp only [hc]; rfl

theorem settleSearch_empty_filtered (p : Props) (x : State × Heap) :
    (settleSearch p [] x).1.filteredRepositories = p.repositories := by
  rcases settleSearch_cases p [] x with h | h <;> rw [h]
  · exact runSearchEffect_empty_filtered p x.1 x.2
  · exact runSearchEffect_empty_filtered p _ _

theorem settleSearch_empty_heap (p : Props) (x : State × Heap) :
    (settleSearch p [] x).2 = x.2 := by
  rcases settleSearch_cases p [] x with h | h <;> rw [h]
  · exact runSearchEffect_empty_heap p x
  · rw [runSearchEffect_empty_heap, runSearchEffect_empty_heap]

theorem runSearchEffect_frame (p : Props) (d : JSString) (x : State × Heap) (r : Ref)
    (hr : r < x.2.arrays.length) :
    r < (runSearchEffect p d x).2.arrays.length ∧ (runSearchEffect p d x).2.read r = x.2.read r := by
  obtain ⟨s, h⟩ := x
  cases d with
  | nil => rw [runSearchEffect_empty_heap]; exact ⟨hr, rfl⟩
  | cons c d =>
    rw [runSearchEffect_search p (c :: d) s h (by simp)]
    refine ⟨?_, read_alloc_old h _ r hr⟩
    simp only [Heap.alloc, List.length_append, List.length_singleton]
    exact Nat.lt_succ_of_lt hr

theorem settleSearch_frame (p : Props) (d : JSString) (x : State × Heap) (r : Ref)
    (hr : r < x.2.arrays.length) :
    r < (settleSearch p d x).2.arrays.length ∧ (settleSearch p d x).2.read r = x.2.read r := by
  have h1 := runSearchEffect_frame p d x r hr
  rcases settleSearch_cases p d x with h | h <;> rw [h]
  · exact h1
  · have h2 := runSearchEffect_frame p d (runSearchEffect p d x) r h1.1
    exact ⟨h2.1, h2.2.trans h1.2⟩

theorem settleSearch_at_rest (p : Props) (d : JSString) (x : State × Heap) :
    isInitialLoad p (runSearchEffect p d (settleSearch p d x)).1 =
      isInitialLoad p (settleSearch p d x).1 := by
  obtain ⟨s, h⟩ := x
  cases d with
  | nil =>
    have key : ∀ y : State × Heap, y.1.filteredRepositories = p.repositories →
        runSearchEffect p [] y = y := by
      rintro ⟨t, k⟩ ht
      rw [runSearchEffect_empty]
      cases hi : isInitialLoad p t
      · simp only [Bool.false_eq_true, if_false]
        simp only at ht
        rw [← ht]
      · simp
    rw [key _ (settleSearch_empty_filtered p (s, h))]
  | cons c d =>
    have hne : (c :: d) ≠ [] := by simp
    have key : ∀ y : State × Heap, isInitialLoad p (runSearchEffect p (c :: d) y).1 = false := by
      rintro ⟨t, k⟩
      rw [runSearchEffect_search p (c :: d) t k hne]
      simp [isInitialLoad]
    rcases settleSearch_cases p (c :: d) (s, h) with hs | hs <;> rw [hs, key, key]

/-- C5: from every state, the search effect run with an empty debounced value,
once or to rest, leaves `filteredRepositories` the very array `repositories` of
the props, so the displayed list is the paginated list; this holds in particular
after a search for any `S` has come to rest, where the paginated list is still
the one of before the search. -/
theorem cleared_search_reverts (p : Props) (s : State) (h : Heap) :
    (runSearchEffect p [] (s, h)).1.filteredRepositories = p.repositories ∧
    (settleSearch p [] (s, h)).1.filteredRepositories = p.repositories ∧
    (settleSearch p [] (s, h)).2 = h ∧
    (settleSearch p [] (s, h)).2.read (settleSearch p [] (s, h)).1.filteredRepositories =
      h.read p.repositories ∧
    isInitialLoad p (runSearchEffect p [] (settleSearch p [] (s, h))).1 =
      isInitialLoad p (settleSearch p [] (s, h)).1 ∧
    (∀ S : JSString,
      (settleSearch p [] (settleSearch p S (s, h))).1.filteredRepositories = p.repositories ∧
      (settleSearch p [] (settleSearch p S (s, h))).2.read
          (settleSearch p [] (settleSearch p S (s, h))).1.filteredRepositories =
        (settleSearch p [] (settleSearch p S (s, h))).2.read p.repositories ∧
      (p.repositories < h.arrays.length →
        (settleSearch p [] (settleSearch p S (s, h))).2.read
            (settleSearch p [] (settleSearch p S (s, h))).1.filteredRepositories =
          h.read p.repositories)) := by
  refine ⟨runSearchEffect_empty_filtered p s h, settleSearch_empty_filtered p _,
    settleSearch_empty_heap p _, ?_, settleSearch_at_rest p [] _, ?_⟩
  · rw [settleSearch_empty_filtered, settleSearch_empty_heap]
  · intro S
    refine ⟨settleSearch_empty_filtered p _, ?_, ?_⟩
    · rw [settleSearch_empty_filtered]
    · intro hlive
      rw [settleSearch_empty_filtered, settleSearch_empty_heap]
      exact (settleSearch_frame p S (s, h) _ hlive).2

/-- C5 at the example data: a search for "zzz" matches nothing and displays the
empty list; once the debounced value is empty again the page of two is
displayed. -/
theorem cleared_search_reverts_witness :
    (settleSearch exampleProps (str "zzz") (initialState exampleProps, exampleHeap)).2.read
        (settleSearch exampleProps (str "zzz")
          (initialState exampleProps, exampleHeap)).1.filteredRepositories = [] ∧
    (settleSearch exampleProps []
          (settleSearch exampleProps (str "zzz") (initialState exampleProps, exampleHeap))).2.read
        (settleSearch exampleProps []
          (settleSearch exampleProps (str "zzz")
            (initialState exampleProps, exampleHeap))).1.filteredRepositories =
      [repositoryNamed "morhetz" "gruvbox", repositoryNamed "joshdick" "onedark.vim"] := by
  refine ⟨by decide, ?_⟩
  rw [((cleared_search_reverts exampleProps (initialState exampleProps) exampleHeap).2.2.2.2.2
    (str "zzz")).2.2 (by decide)]
  decide

/-! ## Initial load -/

theorem step_empty_keeps_initial (p : Props) (x : State × Heap) (e : Event)
    (hx : isInitialLoad p x.1 = true) :
    isInitialLoad p (step p [] x e).1 = true ∧ (step p [] x e).2 = x.2 := by
  obtain ⟨s, h⟩ := x
  cases e with
  | change v => exact ⟨by simpa [step, onChange, applyCalls, applyCall, isInitialLoad] using hx, rfl⟩
  | focusChange b =>
    refine ⟨?_, rfl⟩
    have hx2 : isInitialLoad p s = true := hx
    cases b <;> cases hs : truthy s.searchInput <;>
      simpa [step, onFocusChange, applyCalls, applyCall, isInitialLoad, hs] using hx2
  | searchEffectRun =>
    have hx2 : isInitialLoad p s = true := hx
    simp only [step]
    rw [runSearchEffect_empty]
    simp [hx2]
  | navigationEffectRun =>
    have hx2 : isInitialLoad p s = true := hx
    refine ⟨?_, rfl⟩
    simp [step, navigationEffect, applyCalls, hx2]

theorem run_empty_keeps_initial (p : Props) (events : List Event) (x : State × Heap)
    (hx : isInitialLoad p x.1 = true) :
    isInitialLoad p (run p [] x events).1 = true ∧ (run p [] x events).2 = x.2 := by
  induction events generalizing x with
  | nil => exact ⟨hx, rfl⟩
  | cons e es ih =>
    have h1 := step_empty_keeps_initial p x e hx
    have h2 := ih (step p [] x e) h1.1
    exact ⟨h2.1, h2.2.trans h1.2⟩

theorem effects_silent_of_initial (p : Props) (s : State) (h : Heap)
    (hs : isInitialLoad p s = true) :
    searchEffect p [] s h = (h, []) ∧ navigationEffect p s = [] := by
  simp [searchEffect, navigationEffect, truthy, hs]

/-- C6: in the state of the first render `isInitialLoad` is true, the displayed
list is the paginated list, the search effect at an empty debounced value
invokes no setter and the navigation effect no callback; runs of the two effects
leave the whole state as it is, and after any keystrokes, focus changes and
effect runs at an empty debounced value `isInitialLoad` is still true, the
displayed list still the paginated one and both effects still silent. -/
theorem initial_load_suppressed (p : Props) (h : Heap) :
    isInitialLoad p (initialState p) = true ∧
    h.read (initialState p).filteredRepositories = h.read p.repositories ∧
    searchEffect p [] (initialState p) h = (h, []) ∧
    navigationEffect p (initialState p) = [] ∧
    settleSearch p [] (initialState p, h) = (initialState p, h) ∧
    (∀ runs : List Bool,
      run p [] (initialState p, h)
          (runs.map fun b => if b then Event.searchEffectRun else Event.navigationEffectRun) =
        (initialState p, h)) ∧
    (∀ events : List Event,
      isInitialLoad p (run p [] (initialState p, h) events).1 = true ∧
      (run p [] (initialState p, h) events).1.hasSearched = false ∧
      (run p [] (initialState p, h) events).1.filteredRepositories = p.repositories ∧
      (run p [] (initialState p, h) events).2 = h ∧
      searchEffect p [] (run p [] (initialState p, h) events).1
          (run p [] (initialState p, h) events).2 =
        ((run p [] (initialState p, h) events).2, []) ∧
      navigationEffect p (run p [] (initialState p, h) events).1 = []) := by
  have h0 : isInitialLoad p (initialState p) = true := by simp [isInitialLoad, initialState]
  have hrun : runSearchEffect p [] (initialState p, h) = (initialState p, h) := by
    rw [runSearchEffect_empty]; simp [h0]
  refine ⟨h0, rfl, (effects_silent_of_initial p _ h h0).1,
    (effects_silent_of_initial p _ h h0).2, ?_, ?_, ?_⟩
  · simp [settleSearch, hrun]
  · intro runs
    induction runs with
    | nil => rfl
    | cons b bs ih =>
      have hstep : step p [] (initialState p, h)
          (if b then Event.searchEffectRun else Event.navigationEffectRun) =
          (initialState p, h) := by
        cases b
        · simp [step, (effects_silent_of_initial p _ h h0).2, applyCalls]
        · simpa [step] using hrun
      simp only [run, List.map_cons, List.foldl_cons, hstep] at ih ⊢
      exact ih
  · intro events
    have hk := run_empty_keeps_initial p events (initialState p, h) h0
    have hi := (isInitialLoad_iff p _).1 hk.1
    exact ⟨hk.1, hi.1, hi.2, hk.2, (effects_silent_of_initial p _ _ hk.1).1,
      (effects_silent_of_initial p _ h hk.1).2⟩

/-! ## Navigation -/

/-- C7: a run of the navigation effect calls `resetNavigation` exactly when the
render is not the initial load (`hasSearched` is true or `filteredRepositories`
is not the array `repositories`) and the search box is not focused, and it calls
nothing else; so it is silent while the box has focus, and it resets after the
search effect has run at a non-empty debounced value with the box unfocused. -/
theorem navigationEffect_resets_iff (p : Props) (s : State) :
    (Call.resetNavigation ∈ navigationEffect p s ↔
      (s.hasSearched = true ∨ s.filteredRepositories ≠ p.repositories) ∧
        s.isSearchInputFocused = false) ∧
    (navigationEffect p s = [Call.resetNavigation] ∨ navigationEffect p s = []) ∧
    navigationEffect p { s with isSearchInputFocused := true } = [] ∧
    (∀ (c : CodeUnit) (S : JSString) (h : Heap),
      navigationEffect p
          { (runSearchEffect p (c :: S) (s, h)).1 with isSearchInputFocused := false } =
        [Call.resetNavigation]) := by
  refine ⟨?_, ?_, ?_, ?_⟩
  · cases hh : s.hasSearched <;> cases hf : s.isSearchInputFocused <;>
      by_cases hr : s.filteredRepositories = p.repositories <;>
      simp [navigationEffect, isInitialLoad, hh, hf, hr]
  · unfold navigationEffect
    split
    · left; rfl
    · right; rfl
  · simp [navigationEffect]
  · intro c S h
    rw [runSearchEffect_search p (c :: S) s h (by simp)]
    simp [navigationEffect, isInitialLoad]

/-- C8: the focus handler, when the box gains focus, calls `disableNavigation`
and no other callback; when it loses focus with an empty raw input, calls
`resetNavigation` and no other callback; when it loses focus with a non-empty
raw input, calls no callback; each time it then sets `isSearchInputFocused` to
the flag, and the other cells keep their values. -/
theorem onFocusChange_calls (s : State) (isFocused : Bool) :
    onFocusChange s true = [Call.disableNavigation, Call.setIsSearchInputFocused true] ∧
    onFocusChange { s with searchInput := [] } false =
      [Call.resetNavigation, Call.setIsSearchInputFocused false] ∧
    (∀ (c : CodeUnit) (v : JSString),
      onFocusChange { s with searchInput := c :: v } false =
        [Call.setIsSearchInputFocused false]) ∧
    applyCalls s (onFocusChange s isFocused) = { s with isSearchInputFocused := isFocused } ∧
    (applyCalls s (onFocusChange s isFocused)).isSearchInputFocused = isFocused ∧
    (applyCalls s (onFocusChange s isFocused)).searchInput = s.searchInput ∧
    (applyCalls s (onFocusChange s isFocused)).hasSearched = s.hasSearched ∧
    (applyCalls s (onFocusChange s isFocused)).filteredRepositories = s.filteredRepositories := by
  have hstate : applyCalls s (onFocusChange s isFocused) =
      { s with isSearchInputFocused := isFocused } := by
    cases isFocused <;> cases hs : truthy s.searchInput <;>
      simp [onFocusChange, applyCalls, applyCall, hs]
  refine ⟨rfl, rfl, fun c v => rfl, hstate, ?_, ?_, ?_, ?_⟩ <;> rw [hstate]

/-! ## Render -/

theorem renderedCards_render (c : Constants) (p : Props) (d : JSString) (s : State)
    (h : Heap) :
    renderedCards (render c p d s h) =
      (h.read s.filteredRepositories).map (card (currentPath p.pathname)) := by
  cases d <;> simp [renderedCards, render, truthy, Element.cards]

theorem currentPath_eq_getD (pathname : Option JSString) :
    currentPath pathname = pathname.getD [] := by
  cases pathname with
  | none => rfl
  | some q => simp [currentPath_some]

theorem card_eq (path : JSString) :
    card path = fun r : Repository =>
      ({ key := str "repository-" ++ r.owner.name ++ str "-" ++ r.name
         fromPath := path
         repository := r } : Card) := rfl

theorem matchesSearch_eq_decide (S : JSString) :
    matchesSearch S = fun r : Repository => decide (S <:+: r.name) := by
  funext r
  rw [Bool.eq_iff_iff, matchesSearch_iff]
  simp

/-- C9, amended: in every render the caption, with the start, end and total of
the props, is among the children exactly when the debounced value is empty, and
so is the pagination; the cards are those of `filteredRepositories`, one an
element and in its order, each with the repository itself, the key
`repository-<owner>-<name>` and the current path, with no cap on their number;
and in the render after the search effect has run at a non-empty debounced value
there is neither caption nor pagination and the cards are those of all matches
of the full list. -/
theorem render_caption_pagination_cards (c : Constants) (p : Props) (d : JSString)
    (s : State) (h : Heap) :
    ((∃ e ∈ render c p d s h, e.isCaption = true) ↔ d = []) ∧
    ((∃ e ∈ render c p d s h, e.isPagination = true) ↔ d = []) ∧
    Element.caption (startIndex c.REPOSITORY_COUNT_PER_PAGE p.currentPage)
        (endIndex c.REPOSITORY_COUNT_PER_PAGE p.totalCount p.currentPage) p.totalCount ∈
      render c p [] s h ∧
    Element.pagination p.currentPage p.pageCount
        (activeAction c.values c.TRENDING p.pathname).route ∈ render c p [] s h ∧
    renderedCards (render c p d s h) =
      (h.read s.filteredRepositories).map (fun r =>
        ({ key := str "repository-" ++ r.owner.name ++ str "-" ++ r.name
           fromPath := p.pathname.getD []
           repository := r } : Card)) ∧
    (renderedCards (render c p d s h)).map Card.repository = h.read s.filteredRepositories ∧
    (renderedCards (render c p d s h)).length = (h.read s.filteredRepositories).length ∧
    (∀ (u : CodeUnit) (S : JSString),
      (∀ e ∈ render c p (u :: S) (runSearchEffect p (u :: S) (s, h)).1
          (runSearchEffect p (u :: S) (s, h)).2, e.isCaption = false ∧ e.isPagination = false) ∧
      (renderedCards (render c p (u :: S) (runSearchEffect p (u :: S) (s, h)).1
          (runSearchEffect p (u :: S) (s, h)).2)).map Card.repository =
        (h.read p.allRepositories).filter (fun r => decide ((u :: S) <:+: r.name)) ∧
      renderedCards (render c p (u :: S) (runSearchEffect p (u :: S) (s, h)).1
          (runSearchEffect p (u :: S) (s, h)).2) =
        ((h.read p.allRepositories).filter fun r => decide ((u :: S) <:+: r.name)).map
          (fun r =>
            ({ key := str "repository-" ++ r.owner.name ++ str "-" ++ r.name
               fromPath := p.pathname.getD []
               repository := r } : Card))) := by
  have hcards : ∀ (d : JSString) (s : State) (h : Heap), renderedCards (render c p d s h) =
      (h.read s.filteredRepositories).map (fun r =>
        ({ key := str "repository-" ++ r.owner.name ++ str "-" ++ r.name
           fromPath := p.pathname.getD []
           repository := r } : Card)) := by
    intro d s h
    rw [renderedCards_render, currentPath_eq_getD, card_eq]
  have hrepo : ∀ (d : JSString) (s : State) (h : Heap),
      (renderedCards (render c p d s h)).map Card.repository = h.read s.filteredRepositories := by
    intro d s h
    rw [hcards, List.map_map]
    exact List.map_id _
  refine ⟨?_, ?_, ?_, ?_, hcards d s h, hrepo d s h, ?_, ?_⟩
  · cases d <;> simp [render, truthy, Element.isCaption]
  · cases d <;> simp [render, truthy, Element.isPagination]
  · simp [render, truthy]
  · simp [render, truthy]
  · rw [hcards, List.length_map]
  · intro u S
    have hd := displayed_search p (u :: S) s h (by simp)
    refine ⟨?_, ?_, ?_⟩
    · simp [render, truthy, Element.isCaption, Element.isPagination]
    · rw [hrepo, hd, matchesSearch_eq_decide]
    · rw [hcards, hd, matchesSearch_eq_decide]

/-- C9 as stated fails in the render where the debounced value is already
"dark" and the search effect has not run yet: caption and pagination are absent,
and the cards are those of the page (gruvbox, onedark.vim), not those of the
matches of the full list (onedark.vim, vim-darkness). -/
theorem render_before_search_effect_shows_page :
    (∀ e ∈ render exampleConstants exampleProps (str "dark") (initialState exampleProps)
        exampleHeap, e.isCaption = false ∧ e.isPagination = false) ∧
    (renderedCards (render exampleConstants exampleProps (str "dark")
        (initialState exampleProps) exampleHeap)).map Card.repository =
      [repositoryNamed "morhetz" "gruvbox", repositoryNamed "joshdick" "onedark.vim"] ∧
    (exampleHeap.read exampleProps.allRepositories).filter (matchesSearch (str "dark")) =
      [repositoryNamed "joshdick" "onedark.vim", repositoryNamed "ajmwagar" "vim-darkness"] ∧
    (renderedCards (render exampleConstants exampleProps (str "dark")
        (initialState exampleProps) exampleHeap)).map Card.repository ≠
      (exampleHeap.read exampleProps.allRepositories).filter (matchesSearch (str "dark")) := by
  decide

end RepositoriesPage
